import Mathlib

/-!
Shallow embedding of the reflow-oven firmware control loop found in
src/Firmware/src/main.cpp, together with proofs about its behaviour.

Modelling conventions:
* The firmware targets an 8-bit AVR Arduino (classic SPI pins 11..13), where
  C int is 16 bits wide.  Hence arithmetic whose operands are uint16_t is
  performed in unsigned 16-bit arithmetic and wraps modulo 2^16.  Machine
  integers are modelled as Nat with an explicit reduction modulo 65536 at
  exactly the places where the C integer conversions wrap.
* millis() is modelled as a monotone Nat-valued clock; the 32-bit wrap of
  unsigned long after 49.7 days is not modelled.
* float arithmetic (gain, setPoint, the temperature comparison) is idealised
  as exact arithmetic over ℚ; the operands that reach float are exact
  integers below 2^24, so only the division and the final comparison are
  idealisations.
* One iteration of the inner while loop consumes one Tick, carrying the value
  of millis(), the level of digitalRead(buttonInput) and the thermocouple
  reading for that iteration; within one iteration the clock does not
  advance (sensor reads and actuator writes are fast and non-blocking).
* timeExpiredSincePhaseStart is uint16_t in the source but is modelled as
  Nat: within a single phase the sample counter is bounded by the phase
  length in seconds plus one (at most 66 because of the 16-bit deadline
  wrap), so it can never reach 65536 and the model is faithful.
* Serial and LCD output are not modelled; the observable behaviour of a run
  is its trace of phase entries, sensor reads, actuator writes and phase
  exits.
-/

namespace Reflow

/-- Capacity of the configuration arrays (MAX_ENTIES in the firmware). -/
def MAX_ENTIES : Nat := 10

/-- Reduction modulo 2^16: the wrap of unsigned 16-bit arithmetic on AVR. -/
def wrap16 (n : Nat) : Nat := n % 65536

/-- Unsigned 16-bit subtraction a - b.  For uint16_t operands (a, b < 65536)
this is exactly the value of the C expression a - b, which wraps modulo 2^16
when b > a. -/
def usub16 (a b : Nat) : Nat := (a + 65536 - b) % 65536

/-- The firmware's struct Config: parallel uint16_t arrays time[MAX_ENTIES]
and temperature[MAX_ENTIES] (modelled as total functions on indices) and the
uint8_t field number_of_entries. -/
structure Config where
  time : Nat → Nat
  temperature : Nat → Nat
  number_of_entries : Nat

/-- loadConfiguration: copies the first
min MAX_ENTIES (min |Time| |Temperature|) entries of the parsed JSON arrays
into the configuration and counts them in number_of_entries.  No validation
of any kind is performed: zero durations are stored as-is, and entries past
the capacity are silently dropped rather than rejected. -/
def loadConfiguration (timeValues temperatureValues : List Nat) : Config :=
  ⟨fun i => if i < min MAX_ENTIES (min timeValues.length temperatureValues.length)
      then timeValues.getD i 0 else 0,
   fun i => if i < min MAX_ENTIES (min timeValues.length temperatureValues.length)
      then temperatureValues.getD i 0 else 0,
   min MAX_ENTIES (min timeValues.length temperatureValues.length)⟩

/-- Initial value of temperatureOffset: the ambient default 25 used for the
first phase. -/
def AMBIENT : Nat := 25

/-- One iteration of the inner control loop, as observed from outside: the
value of millis(), the level of digitalRead(buttonInput) (true = HIGH = not
pressed, the pull-up idle level) and the thermocouple reading that
readCelsius() would return during this iteration. -/
structure Tick where
  now : Nat
  btnHigh : Bool
  temp : ℚ
deriving DecidableEq

/-- Observable events of a run.  phaseEnter i marks the top of the for-loop
body for heatingPhase = i; sensorRead and actuatorWrite are the calls to
readCelsius() and digitalWrite(relayOutput, _); timeoutExit and abortExit
mark the two break statements of the inner while loop. -/
inductive Event where
  | phaseEnter (i : Nat)
  | sensorRead (q : ℚ)
  | actuatorWrite (b : Bool)
  | timeoutExit (i : Nat)
  | abortExit (i : Nat)
deriving DecidableEq

/-- How the inner while loop of a phase was left. -/
inductive PhaseExit where
  | timeout
  | aborted
deriving DecidableEq

/-- gain = (float)(config.temperature[i] - temperatureOffset) /
(float)(config.time[i]).  The subtraction is unsigned 16-bit and wraps; the
float division is idealised as rational division. -/
def gain (target offset duration : Nat) : ℚ :=
  (usub16 target offset : ℚ) / (duration : ℚ)

/-- setPoint = gain * timeExpiredSincePhaseStart + temperatureOffset. -/
def setPoint (target offset duration elapsed : Nat) : ℚ :=
  gain target offset duration * (elapsed : ℚ) + (offset : ℚ)

/-- temperatureOffset as computed at phase entry: 25 for the first phase,
otherwise the previous phase's target temperature. -/
def startTemperature (cfg : Config) (i : Nat) : Nat :=
  if i = 0 then AMBIENT else cfg.temperature (i - 1)

/-- finishHeatingPhaseTime = millis() + config.time[i] * 1000.  On AVR the
product uint16_t * int is computed in unsigned 16-bit arithmetic and wraps
modulo 2^16 before being widened to unsigned long for the addition. -/
def phaseDeadline (now duration : Nat) : Nat := now + wrap16 (duration * 1000)

/-- The inner while (true) loop of one phase.  Arguments: phase index i,
target temperature T, temperatureOffset S, duration D, finishHeatingPhaseTime
F, then the mutable state nextSampleTime and timeExpiredSincePhaseStart, and
the remaining loop iterations.  Mirrors the source exactly: the sample block
runs first when millis() >= nextSampleTime, then the deadline check breaks,
then the abort check breaks.  Returns the event trace and, if a break was
reached, how the loop was left together with the unconsumed iterations; none
means the observation ended with the loop still running. -/
def phaseLoop (i T S D F : Nat) :
    Nat → Nat → List Tick → List Event × Option (PhaseExit × List Tick)
  | _, _, [] => ([], none)
  | ns, te, t :: ts =>
    if ns ≤ t.now then
      let b := decide (t.temp < setPoint T S D (te + 1))
      if F ≤ t.now then
        ([Event.sensorRead t.temp, Event.actuatorWrite b, Event.timeoutExit i],
          some (PhaseExit.timeout, ts))
      else if t.btnHigh then
        match phaseLoop i T S D F (ns + 1000) (te + 1) ts with
        | (evs, r) => (Event.sensorRead t.temp :: Event.actuatorWrite b :: evs, r)
      else
        ([Event.sensorRead t.temp, Event.actuatorWrite b, Event.abortExit i],
          some (PhaseExit.aborted, ts))
    else
      if F ≤ t.now then
        ([Event.timeoutExit i], some (PhaseExit.timeout, ts))
      else if t.btnHigh then
        phaseLoop i T S D F ns te ts
      else
        ([Event.abortExit i], some (PhaseExit.aborted, ts))

/-- The for loop over heatingPhase.  The first argument after cfg is the
current phase index i, the second the number of phases still to run (the for
loop executes number_of_entries iterations in total), the third the remaining
loop iterations.  Phase entry computes nextSampleTime and
finishHeatingPhaseTime from millis() (the time of the iteration about to
run) and temperatureOffset via startTemperature.  Crucially, a phase left by
the abort break is followed by the next phase all the same: the break only
leaves the inner while loop. -/
def runSeq (cfg : Config) : Nat → Nat → List Tick → List Event × Option (List Tick)
  | _, 0, ticks => ([], some ticks)
  | i, k + 1, ticks =>
    match ticks with
    | [] => ([Event.phaseEnter i], none)
    | t :: _ =>
      match phaseLoop i (cfg.temperature i) (startTemperature cfg i) (cfg.time i)
          (phaseDeadline t.now (cfg.time i)) (t.now + 1000) 0 ticks with
      | (evs, none) => (Event.phaseEnter i :: evs, none)
      | (evs, some (_, ts2)) =>
        match runSeq cfg (i + 1) k ts2 with
        | (evs2, r2) => (Event.phaseEnter i :: (evs ++ evs2), r2)

/-- One execution of loop() from the start trigger: run the for loop over
all phases, then digitalWrite(relayOutput, LOW).  Returns the event trace
and some remaining iterations when the run reached the final OFF write (none
when the observation ended mid-run). -/
def runLoop (cfg : Config) (ticks : List Tick) : List Event × Option (List Tick) :=
  match runSeq cfg 0 cfg.number_of_entries ticks with
  | (evs, none) => (evs, none)
  | (evs, some ts) => (evs ++ [Event.actuatorWrite false], some ts)

/-- Projection of an event onto the value written to the relay, if any. -/
def eventActuator : Event → Option Bool
  | Event.actuatorWrite b => some b
  | _ => none

/-- The sequence of values written to the relay along a trace. -/
def actuatorWrites (evs : List Event) : List Bool :=
  evs.filterMap eventActuator

/-- Projection of an event onto the phase index it enters, if any. -/
def eventPhase : Event → Option Nat
  | Event.phaseEnter i => some i
  | _ => none

/-- The sequence of phase indices entered along a trace, in order. -/
def phasesVisited (evs : List Event) : List Nat :=
  evs.filterMap eventPhase

/-! Arithmetic lemmas about unsigned 16-bit subtraction. -/

theorem usub16_of_le {a b : Nat} (hba : b ≤ a) (ha : a < 65536) :
    usub16 a b = a - b := by
  unfold usub16
  have h : a + 65536 - b = (a - b) + 65536 := by omega
  rw [h, Nat.add_mod_right]
  exact Nat.mod_eq_of_lt (by omega)

theorem usub16_of_gt {a b : Nat} (hab : a < b) :
    usub16 a b = a + 65536 - b := by
  unfold usub16
  exact Nat.mod_eq_of_lt (by omega)

theorem usub16_self (a : Nat) : usub16 a a = 0 := by
  unfold usub16
  have h : a + 65536 - a = 65536 := by omega
  rw [h, Nat.mod_self]

/-- C3 (amended): for uint16 start and target and positive duration, the
setpoint at elapsed 0 is start; when start is at most target the setpoint at
elapsed = duration is target, the ramp is strictly increasing for
start < target and constant for target = start.  When target < start the
unsigned 16-bit subtraction in the gain wraps: the setpoint is again strictly
increasing (not decreasing) and reaches target + 65536 (not target) at
elapsed = duration. -/
theorem C3_setPoint_linearity (start target duration : Nat)
    (hs : start < 65536) (ht : target < 65536) (hd : 0 < duration) :
    setPoint target start duration 0 = start
    ∧ (start ≤ target → setPoint target start duration duration = target)
    ∧ (start < target → ∀ e e' : Nat, e < e' →
        setPoint target start duration e < setPoint target start duration e')
    ∧ (target = start → ∀ e : Nat, setPoint target start duration e = start)
    ∧ (target < start →
        setPoint target start duration duration = (target : ℚ) + 65536
        ∧ ∀ e e' : Nat, e < e' →
          setPoint target start duration e < setPoint target start duration e') := by
  have hdq : (duration : ℚ) ≠ 0 := Nat.cast_ne_zero.mpr hd.ne'
  refine ⟨?_, ?_, ?_, ?_, ?_⟩
  · simp [setPoint]
  · intro h
    rw [setPoint, gain, usub16_of_le h ht, div_mul_cancel₀ _ hdq,
      Nat.cast_sub h]
    ring
  · intro h e e' he
    have hpos : (0:ℚ) < gain target start duration := by
      rw [gain, usub16_of_le h.le ht]
      apply div_pos
      · exact_mod_cast Nat.sub_pos_of_lt h
      · exact_mod_cast hd
    have hee : (e:ℚ) < e' := by exact_mod_cast he
    unfold setPoint
    nlinarith
  · intro h e
    rw [setPoint, gain, h, usub16_self]
    simp
  · intro h
    constructor
    · rw [setPoint, gain, usub16_of_gt h, div_mul_cancel₀ _ hdq,
        Nat.cast_sub (show start ≤ target + 65536 by omega)]
      push_cast
      ring
    · intro e e' he
      have hpos : (0:ℚ) < gain target start duration := by
        rw [gain, usub16_of_gt h]
        apply div_pos
        · exact_mod_cast (show 0 < target + 65536 - start by omega)
        · exact_mod_cast hd
      have hee : (e:ℚ) < e' := by exact_mod_cast he
      unfold setPoint
      nlinarith

/-- Witness for C3_setPoint_linearity at start 25, target 100, duration 10:
the ramp starts at 25 and ends at 100. -/
theorem C3_setPoint_linearity_witness :
    setPoint 100 25 10 0 = 25 ∧ setPoint 100 25 10 10 = 100 := by
  have h := C3_setPoint_linearity 25 100 10 (by norm_num) (by norm_num) (by norm_num)
  exact ⟨h.1, h.2.1 (by norm_num)⟩

/-- C3 counterexample: for start 100, target 50, duration 5 (a descending
ramp) the claim fails on the code: the setpoint strictly increases from
elapsed 0 to elapsed 1 instead of decreasing, and at elapsed = duration it
is not the target 50 (it is 65586, because the unsigned 16-bit subtraction
in the gain wrapped). -/
theorem C3_descending_counterexample :
    setPoint 50 100 5 0 < setPoint 50 100 5 1 ∧ setPoint 50 100 5 5 ≠ 50 := by
  norm_num [setPoint, gain, usub16]

/-- C10: the phase deadline is millis() plus (duration * 1000) reduced
modulo 2^16, and for every duration above 65 seconds that reduced value is
strictly smaller than the intended duration * 1000 milliseconds. -/
theorem C10_deadline_wrap (now duration : Nat) :
    phaseDeadline now duration = now + (duration * 1000) % 65536
    ∧ (65 < duration → (duration * 1000) % 65536 < duration * 1000) := by
  refine ⟨rfl, ?_⟩
  intro h
  omega

/-- Witness for C10_deadline_wrap at duration 66: the scheduled phase length
is 66000 % 65536 = 464 ms, not 66000 ms. -/
theorem C10_deadline_wrap_witness :
    phaseDeadline 0 66 = 0 + (66 * 1000) % 65536
    ∧ (66 * 1000) % 65536 < 66 * 1000 :=
  ⟨(C10_deadline_wrap 0 66).1, (C10_deadline_wrap 0 66).2 (by norm_num)⟩

/-- The inner while loop never enters a phase: its trace contains no
phaseEnter event. -/
theorem phasesVisited_phaseLoop (i T S D F : Nat) :
    ∀ (ticks : List Tick) (ns te : Nat),
      phasesVisited (phaseLoop i T S D F ns te ticks).1 = [] := by
  intro ticks
  induction ticks with
  | nil => intro ns te; simp [phaseLoop, phasesVisited]
  | cons t ts ih =>
    intro ns te
    by_cases h1 : ns ≤ t.now
    · by_cases h2 : F ≤ t.now
      · simp [phaseLoop, h1, h2, phasesVisited, eventPhase]
      · by_cases h3 : t.btnHigh
        · rcases h4 : phaseLoop i T S D F (ns + 1000) (te + 1) ts with ⟨evs, r⟩
          have h5 := ih (ns + 1000) (te + 1)
          rw [h4] at h5
          simp only [phasesVisited] at h5 ⊢
          simp [phaseLoop, h1, h2, h3, h4, eventPhase, h5]
        · simp [phaseLoop, h1, h2, h3, phasesVisited, eventPhase]
    · by_cases h2 : F ≤ t.now
      · simp [phaseLoop, h1, h2, phasesVisited, eventPhase]
      · by_cases h3 : t.btnHigh
        · have h5 := ih ns te
          simp only [phasesVisited] at h5 ⊢
          simp [phaseLoop, h1, h2, h3, h5]
        · simp [phaseLoop, h1, h2, h3, phasesVisited, eventPhase]

/-- An empty configuration used as a concrete input in several witnesses. -/
def cfg0 : Config := ⟨fun _ => 0, fun _ => 0, 0⟩

/-- C1: every run that reaches the end of loop() (a terminal state) has
OFF as the last value ever written to the relay: the trailing
digitalWrite(relayOutput, LOW) is the final actuator write of the run. -/
theorem C1_terminal_actuator_off (cfg : Config) (ticks : List Tick)
    (h : (runLoop cfg ticks).2.isSome = true) :
    (actuatorWrites (runLoop cfg ticks).1).getLast? = some false := by
  rcases hr : runSeq cfg 0 cfg.number_of_entries ticks with ⟨evs, r⟩
  cases r with
  | none =>
    unfold runLoop at h
    rw [hr] at h
    simp at h
  | some ts =>
    unfold runLoop
    rw [hr]
    simp [actuatorWrites, List.filterMap_append, eventActuator, List.getLast?_concat]

/-- Witness for C1_terminal_actuator_off: the empty profile run terminates
and its last actuator write is OFF. -/
theorem C1_terminal_actuator_off_witness :
    (runLoop cfg0 []).2.isSome = true
    ∧ (actuatorWrites (runLoop cfg0 []).1).getLast? = some false :=
  ⟨by decide, C1_terminal_actuator_off cfg0 [] (by decide)⟩

/-- C5 counterexample: on the empty profile the run does complete
immediately, but its trace does contain an actuator write (the terminal
fail-safe OFF), contradicting the claim that no actuator write is
performed. -/
theorem C5_empty_profile_counterexample :
    (runLoop cfg0 []).2 = some [] ∧ actuatorWrites (runLoop cfg0 []).1 ≠ [] := by
  refine ⟨by decide, by decide⟩

/-- C5 (amended): a run on a profile with zero phases completes immediately:
no phase is entered, no sensor read happens, and the only actuator write is
the single terminal fail-safe OFF. -/
theorem C5_empty_profile (cfg : Config) (ticks : List Tick)
    (h : cfg.number_of_entries = 0) :
    runLoop cfg ticks = ([Event.actuatorWrite false], some ticks) := by
  unfold runLoop
  rw [h]
  simp [runSeq]

/-- Witness for C5_empty_profile on the concrete empty configuration. -/
theorem C5_empty_profile_witness :
    runLoop cfg0 [] = ([Event.actuatorWrite false], some []) :=
  C5_empty_profile cfg0 [] rfl

/-- The for loop starting at phase i visits the consecutive phase indices
i, i+1, ... with no skip and no repetition; a run that reaches the end of
the for loop visits exactly the k phases it was asked to run. -/
theorem runSeq_phasesVisited (cfg : Config) :
    ∀ (k i : Nat) (ticks : List Tick), ∃ m, m ≤ k
      ∧ phasesVisited (runSeq cfg i k ticks).1 = List.range' i m
      ∧ ((runSeq cfg i k ticks).2.isSome = true → m = k) := by
  intro k
  induction k with
  | zero =>
    intro i ticks
    exact ⟨0, Nat.le_refl 0, by simp [runSeq, phasesVisited], fun _ => rfl⟩
  | succ k ih =>
    intro i ticks
    cases ticks with
    | nil =>
      refine ⟨1, by omega, ?_, ?_⟩
      · simp [runSeq, phasesVisited, eventPhase, List.range'_succ]
      · simp [runSeq]
    | cons t ts =>
      rcases h4 : phaseLoop i (cfg.temperature i) (startTemperature cfg i) (cfg.time i)
          (phaseDeadline t.now (cfg.time i)) (t.now + 1000) 0 (t :: ts) with ⟨evs, r⟩
      have hevs : evs.filterMap eventPhase = [] := by
        have h6 := phasesVisited_phaseLoop i (cfg.temperature i) (startTemperature cfg i)
          (cfg.time i) (phaseDeadline t.now (cfg.time i)) (t :: ts) (t.now + 1000) 0
        rw [h4] at h6
        simpa [phasesVisited] using h6
      cases r with
      | none =>
        refine ⟨1, by omega, ?_, ?_⟩
        · simp [runSeq, h4, phasesVisited, eventPhase, hevs, List.range'_succ]
        · simp [runSeq, h4]
      | some p =>
        rcases p with ⟨ex, ts2⟩
        obtain ⟨m, hm1, hm2, hm3⟩ := ih (i + 1) ts2
        rcases h5 : runSeq cfg (i + 1) k ts2 with ⟨evs2, r2⟩
        rw [h5] at hm2 hm3
        refine ⟨m + 1, by omega, ?_, ?_⟩
        · simp only [phasesVisited] at hm2 ⊢
          simp [runSeq, h4, h5, eventPhase, List.filterMap_append, hevs,
            List.range'_succ, hm2]
        · intro hsome
          have h7 : r2.isSome = true := by
            simp only [runSeq, h4, h5] at hsome
            simpa using hsome
          have := hm3 (by simpa using h7)
          omega

/-- C9: along any observed run the phase indices entered form the list
range m = [0, 1, ..., m-1] for some m at most N: phases are visited in
strictly increasing index order with no skip and no repetition, and a run
that terminates has visited every phase 0 .. N-1 exactly once. -/
theorem C9_phase_order (cfg : Config) (ticks : List Tick) :
    ∃ m, m ≤ cfg.number_of_entries
      ∧ phasesVisited (runLoop cfg ticks).1 = List.range m
      ∧ ((runLoop cfg ticks).2.isSome = true → m = cfg.number_of_entries) := by
  obtain ⟨m, hm1, hm2, hm3⟩ :=
    runSeq_phasesVisited cfg cfg.number_of_entries 0 ticks
  rcases hr : runSeq cfg 0 cfg.number_of_entries ticks with ⟨evs, r⟩
  rw [hr] at hm2 hm3
  refine ⟨m, hm1, ?_, ?_⟩
  · cases r with
    | none =>
      unfold runLoop
      rw [hr]
      simpa [List.range_eq_range'] using hm2
    | some ts =>
      unfold runLoop
      rw [hr]
      simp only [phasesVisited] at hm2 ⊢
      simp [List.filterMap_append, eventPhase, hm2, List.range_eq_range']
  · cases r with
    | none =>
      unfold runLoop
      rw [hr]
      intro h
      simp at h
    | some ts =>
      intro _
      exact hm3 (by simp)

/-- Witness for C9_phase_order on the empty profile and empty observation. -/
theorem C9_phase_order_witness :
    ∃ m, m ≤ cfg0.number_of_entries
      ∧ phasesVisited (runLoop cfg0 []).1 = List.range m
      ∧ ((runLoop cfg0 []).2.isSome = true → m = cfg0.number_of_entries) :=
  C9_phase_order cfg0 []

/-- At a sampling instant (millis() at or past nextSampleTime) the iteration
first reads the sensor and then writes the actuator with the value of the
comparison measured < setpoint, whatever happens in the rest of the
iteration. -/
theorem phaseLoop_sample_cons (i T S D F ns te : Nat) (t : Tick) (ts : List Tick)
    (h : ns ≤ t.now) :
    ∃ r, (phaseLoop i T S D F ns te (t :: ts)).1 =
      Event.sensorRead t.temp
        :: Event.actuatorWrite (decide (t.temp < setPoint T S D (te + 1))) :: r := by
  by_cases h2 : F ≤ t.now
  · exact ⟨[Event.timeoutExit i], by simp [phaseLoop, h, h2]⟩
  · by_cases h3 : t.btnHigh = true
    · rcases h4 : phaseLoop i T S D F (ns + 1000) (te + 1) ts with ⟨evs, r⟩
      exact ⟨evs, by simp [phaseLoop, h, h2, h3, h4]⟩
    · exact ⟨[Event.abortExit i], by simp [phaseLoop, h, h2, h3]⟩

/-- An iteration that is not a sampling instant, does not reach the deadline
and sees the button released changes nothing observable. -/
theorem phaseLoop_skip (i T S D F ns te : Nat) (t : Tick) (ts : List Tick)
    (h1 : ¬ ns ≤ t.now) (h2 : ¬ F ≤ t.now) (h3 : t.btnHigh = true) :
    phaseLoop i T S D F ns te (t :: ts) = phaseLoop i T S D F ns te ts := by
  simp [phaseLoop, h1, h2, h3]

/-- C7: at every sampling instant of the inner loop, whatever the phase
parameters and the mutable state, the iteration reads the sensor and then
writes the actuator ON exactly when the measured temperature is strictly
below the current setpoint and OFF otherwise; the decision is a pure
threshold comparison of the current sample only, recomputed at every
sample. -/
theorem C7_bang_bang (i T S D F ns te : Nat) (t : Tick) (ts : List Tick)
    (h : ns ≤ t.now) :
    ((phaseLoop i T S D F ns te (t :: ts)).1).take 2 =
      [Event.sensorRead t.temp,
       Event.actuatorWrite (decide (t.temp < setPoint T S D (te + 1)))] := by
  obtain ⟨r, hr⟩ := phaseLoop_sample_cons i T S D F ns te t ts h
  rw [hr]
  rfl

/-- Witness for C7_bang_bang: concrete sampling iteration at millis() =
1000, measured 20, setpoint 32.5. -/
theorem C7_bang_bang_witness :
    ((phaseLoop 0 100 25 10 10000 1000 0 [⟨1000, true, 20⟩]).1).take 2 =
      [Event.sensorRead 20,
       Event.actuatorWrite (decide ((20 : ℚ) < setPoint 100 25 10 1))] :=
  C7_bang_bang 0 100 25 10 10000 1000 0 ⟨1000, true, 20⟩ [] (by norm_num)

/-- C6: on any iteration pair where phase i is entered at tick t and the
first sampling instant is reached at tick u, the actuator decision compares
against the setpoint computed with start temperature 25 for i = 0 and the
target temperature of phase i-1 otherwise. -/
theorem C6_start_temperature (cfg : Config) (i k : Nat) (t u : Tick) (ts : List Tick)
    (hb : t.btnHigh = true) (hf : t.now < phaseDeadline t.now (cfg.time i))
    (hu : t.now + 1000 ≤ u.now) :
    ((runSeq cfg i (k + 1) (t :: u :: ts)).1).take 3 =
      [Event.phaseEnter i, Event.sensorRead u.temp,
       Event.actuatorWrite (decide (u.temp <
         setPoint (cfg.temperature i) (if i = 0 then 25 else cfg.temperature (i - 1))
           (cfg.time i) 1))] := by
  have h1 : ¬ (t.now + 1000 ≤ t.now) := by omega
  have h2 : ¬ (phaseDeadline t.now (cfg.time i) ≤ t.now) := by omega
  have hskip := phaseLoop_skip i (cfg.temperature i) (startTemperature cfg i)
    (cfg.time i) (phaseDeadline t.now (cfg.time i)) (t.now + 1000) 0 t (u :: ts) h1 h2 hb
  obtain ⟨r, hr⟩ := phaseLoop_sample_cons i (cfg.temperature i) (startTemperature cfg i)
    (cfg.time i) (phaseDeadline t.now (cfg.time i)) (t.now + 1000) 0 u ts hu
  rcases h4 : phaseLoop i (cfg.temperature i) (startTemperature cfg i) (cfg.time i)
      (phaseDeadline t.now (cfg.time i)) (t.now + 1000) 0 (u :: ts) with ⟨evs, rr⟩
  rw [h4] at hr
  simp only at hr
  cases rr with
  | none =>
    simp only [runSeq]
    rw [hskip, h4]
    simp [hr, startTemperature, AMBIENT]
  | some p =>
    rcases p with ⟨ex, ts2⟩
    rcases h5 : runSeq cfg (i + 1) k ts2 with ⟨evs2, r2⟩
    simp only [runSeq]
    rw [hskip, h4]
    simp [hr, h5, startTemperature, AMBIENT]

/-- Configuration with two phases, (10 s, 100) then (10 s, 200), used as a
concrete input. -/
def cfgTwo : Config := ⟨fun j => [10, 10].getD j 0, fun j => [100, 200].getD j 0, 2⟩

/-- Witness for C6_start_temperature: in phase 1 of cfgTwo the first sample
compares against the setpoint whose start temperature is phase 0's target. -/
theorem C6_start_temperature_witness :
    ((runSeq cfgTwo 1 1 [⟨0, true, 20⟩, ⟨1000, true, 20⟩]).1).take 3 =
      [Event.phaseEnter 1, Event.sensorRead 20,
       Event.actuatorWrite (decide ((20 : ℚ) <
         setPoint (cfgTwo.temperature 1) (if 1 = 0 then 25 else cfgTwo.temperature 0)
           (cfgTwo.time 1) 1))] :=
  C6_start_temperature cfgTwo 1 0 ⟨0, true, 20⟩ ⟨1000, true, 20⟩ [] rfl
    (by decide) (by decide)

/-- Whenever the inner loop leaves the phase through the deadline check,
provided nextSampleTime is at most the deadline and their distance is a
multiple of the sampling period, the exit iteration samples first: the trace
ends with a sensor read and an actuator write immediately before the
timeout exit. -/
theorem phaseLoop_timeout_sampled (i T S D F : Nat) :
    ∀ (ticks : List Tick) (ns te : Nat) (rest : List Tick),
      ns ≤ F → (F - ns) % 1000 = 0 →
      (phaseLoop i T S D F ns te ticks).2 = some (PhaseExit.timeout, rest) →
      ∃ pre q b, (phaseLoop i T S D F ns te ticks).1 =
        pre ++ [Event.sensorRead q, Event.actuatorWrite b, Event.timeoutExit i] := by
  intro ticks
  induction ticks with
  | nil =>
    intro ns te rest h1 h2 h3
    simp [phaseLoop] at h3
  | cons t ts ih =>
    intro ns te rest h1 h2 h3
    by_cases hs : ns ≤ t.now
    · by_cases hf : F ≤ t.now
      · refine ⟨[], t.temp, decide (t.temp < setPoint T S D (te + 1)), ?_⟩
        simp [phaseLoop, hs, hf]
      · by_cases hbtn : t.btnHigh = true
        · rcases h4 : phaseLoop i T S D F (ns + 1000) (te + 1) ts with ⟨evs, rr⟩
          have h3a : rr = some (PhaseExit.timeout, rest) := by
            simpa [phaseLoop, hs, hf, hbtn, h4] using h3
          obtain ⟨pre, q, b, h5⟩ := ih (ns + 1000) (te + 1) rest (by omega) (by omega)
            (by rw [h4]; exact h3a)
          rw [h4] at h5
          simp only at h5
          refine ⟨Event.sensorRead t.temp
            :: Event.actuatorWrite (decide (t.temp < setPoint T S D (te + 1))) :: pre,
            q, b, ?_⟩
          simp [phaseLoop, hs, hf, hbtn, h4, h5]
        · simp [phaseLoop, hs, hf, hbtn] at h3
    · by_cases hf : F ≤ t.now
      · omega
      · by_cases hbtn : t.btnHigh = true
        · have h3a : (phaseLoop i T S D F ns te ts).2 = some (PhaseExit.timeout, rest) := by
            simpa [phaseLoop, hs, hf, hbtn] using h3
          obtain ⟨pre, q, b, h5⟩ := ih ns te rest h1 h2 h3a
          exact ⟨pre, q, b, by simpa [phaseLoop, hs, hf, hbtn] using h5⟩
        · simp [phaseLoop, hs, hf, hbtn] at h3

/-- C8 (amended): for a phase with duration between 1 and 65 seconds (so
that duration * 1000 does not wrap modulo 2^16), run from phase entry at
time t0, every exit through the deadline check is immediately preceded, in
the same iteration, by that second's sensor read and actuator write: the
sample and actuator decision for a second happen strictly before the
termination check for that second, and the last second of the phase still
produces one sample and one actuator decision before the transition. -/
theorem C8_sample_before_timeout (i T S D t0 : Nat) (ticks rest : List Tick)
    (hd1 : 1 ≤ D) (hd2 : D * 1000 < 65536)
    (hres : (phaseLoop i T S D (phaseDeadline t0 D) (t0 + 1000) 0 ticks).2 =
      some (PhaseExit.timeout, rest)) :
    ∃ pre q b, (phaseLoop i T S D (phaseDeadline t0 D) (t0 + 1000) 0 ticks).1 =
      pre ++ [Event.sensorRead q, Event.actuatorWrite b, Event.timeoutExit i] := by
  have hD : phaseDeadline t0 D = t0 + D * 1000 := by
    unfold phaseDeadline wrap16
    rw [Nat.mod_eq_of_lt hd2]
  apply phaseLoop_timeout_sampled i T S D (phaseDeadline t0 D) ticks (t0 + 1000) 0 rest
    ?_ ?_ hres
  · rw [hD]; omega
  · rw [hD]; omega

/-- Witness for C8_sample_before_timeout: a 1-second phase observed at
millis() = 0 and 1000 leaves through the deadline check and its trace ends
with the second's sample and actuator write before the exit. -/
theorem C8_sample_before_timeout_witness :
    ∃ pre q b, (phaseLoop 0 100 25 1 (phaseDeadline 0 1) (0 + 1000) 0
        [⟨0, true, 20⟩, ⟨1000, true, 20⟩]).1 =
      pre ++ [Event.sensorRead q, Event.actuatorWrite b, Event.timeoutExit 0] :=
  C8_sample_before_timeout 0 100 25 1 0 [⟨0, true, 20⟩, ⟨1000, true, 20⟩] []
    (by norm_num) (by norm_num) (by decide)

/-- Configuration with a single 66-second phase. -/
def cfg66 : Config := ⟨fun _ => 66, fun _ => 100, 1⟩

/-- Loop iterations at every millisecond 0, 1, ..., n-1 with the button
released and a constant reading of 20 degrees. -/
def msTicks (n : Nat) : List Tick := (List.range n).map fun k => ⟨k, true, 20⟩

set_option maxRecDepth 40000 in
/-- C8 counterexample: a phase with the positive duration 66 s, observed
with the loop iterating every millisecond from phase entry, leaves the phase
through the deadline check after only 464 ms: its trace contains no sensor
read and no actuator decision before the transition out of the phase (the
only actuator write of the whole run is the terminal fail-safe OFF), because
the 16-bit deadline computation wrapped 66000 ms to 464 ms, which is before
the first sampling instant. -/
theorem C8_no_sample_counterexample :
    runLoop cfg66 (msTicks 465) =
      ([Event.phaseEnter 0, Event.timeoutExit 0, Event.actuatorWrite false],
        some []) := by
  decide

/-- C2: failing run.  Profile cfgTwo has two phases; the button is pressed
(abort) 1 ms into phase 0 and released again.  The abort break only leaves
the inner while loop of phase 0, so the for loop enters phase 1 all the
same, and at the next sampling instant the relay is written ON (measured 20
is below the setpoint 110): the run does not transition to a terminal
Aborted state, a further phase is entered, and a further sample and
actuator-ON decision occur after the abort was observed. -/
theorem C2_abort_continues_heating :
    runLoop cfgTwo [⟨0, true, 20⟩, ⟨1, false, 20⟩, ⟨2, true, 20⟩, ⟨1002, true, 20⟩] =
      ([Event.phaseEnter 0, Event.abortExit 0, Event.phaseEnter 1,
        Event.sensorRead 20, Event.actuatorWrite true], none) := by
  have hq : decide ((20 : ℚ) < setPoint 200 100 10 1) = true := by
    simp only [decide_eq_true_eq]
    norm_num [setPoint, gain, usub16]
  simp [runLoop, runSeq, phaseLoop, cfgTwo, startTemperature, phaseDeadline, wrap16,
    AMBIENT, hq]

/-- C4: failing run.  The stored profile has a single phase with duration
0, which the claim requires to be rejected before any phase is entered.
loadConfiguration accepts it unchanged, and on trigger the runner enters
phase 0 (PhaseRunning(0)) and runs to completion; no error is surfaced
anywhere. -/
theorem C4_invalid_profile_still_runs :
    runLoop (loadConfiguration [0] [100]) [⟨5, true, 20⟩] =
      ([Event.phaseEnter 0, Event.timeoutExit 0, Event.actuatorWrite false],
        some []) := by
  decide

end Reflow
